import Mathlib

/-!
Shallow embedding of the messengor chat server (Go) and proofs about it.

The definitions below are translated from the Go sources:
  - `GeneratePrivateChatID` from the server package (chat-ID derivation),
  - `generatePrivateChatIDClient` from the terminal client,
  - the identity store (`RegisterNewUser`) from `auth_store.go`,
  - the history store (`SaveMessage` / `LoadChatHistory`),
  - the `GET_CHAT_HISTORY_REQUEST` branch of `Client.readPump`,
  - the broadcast case of `Hub.Run`,
  - the pre-auth gate's handling of inbound text frames.

Go strings are modelled as Lean `String`.  Go compares strings byte-wise on
their UTF-8 encoding; since UTF-8 is order-preserving, this is the same as
comparing the codepoint sequences, which `strLe` below implements directly.
Machine timestamps (`int64` seconds) are modelled as `Int`.
-/

namespace Messengor

/-- Lexicographic comparison of codepoint sequences, the order Go uses to
compare strings (byte-wise comparison of UTF-8 data). -/
def listCharLe : List Char → List Char → Bool
  | [], _ => true
  | _ :: _, [] => false
  | a :: as, b :: bs =>
    if a.toNat < b.toNat then true
    else if b.toNat < a.toNat then false
    else listCharLe as bs

/-- Go's `a <= b` on strings. -/
def strLe (a b : String) : Bool := listCharLe a.data b.data

theorem listCharLe_refl (l : List Char) : listCharLe l l = true := by
  induction l with
  | nil => rfl
  | cons a as ih => simp [listCharLe, ih]

theorem listCharLe_total {l m : List Char} (h : listCharLe l m = false) :
    listCharLe m l = true := by
  induction l generalizing m with
  | nil => simp [listCharLe] at h
  | cons a as ih =>
    cases m with
    | nil => rfl
    | cons b bs =>
      simp only [listCharLe] at h ⊢
      by_cases hab : a.toNat < b.toNat
      · simp [hab] at h
      · by_cases hba : b.toNat < a.toNat
        · simp [hba]
        · simp only [if_neg hab, if_neg hba] at h
          simp only [if_neg hba, if_neg hab]
          exact ih h

theorem listCharLe_antisymm {l m : List Char} (h₁ : listCharLe l m = true)
    (h₂ : listCharLe m l = true) : l = m := by
  induction l generalizing m with
  | nil =>
    cases m with
    | nil => rfl
    | cons b bs => simp [listCharLe] at h₂
  | cons a as ih =>
    cases m with
    | nil => simp [listCharLe] at h₁
    | cons b bs =>
      simp only [listCharLe] at h₁ h₂
      by_cases hab : a.toNat < b.toNat
      · simp [if_neg (Nat.lt_asymm hab), hab] at h₂
      · by_cases hba : b.toNat < a.toNat
        · simp [hba, if_neg hab] at h₁
        · simp only [if_neg hab, if_neg hba] at h₁
          simp only [if_neg hba, if_neg hab] at h₂
          have hn : a.toNat = b.toNat := by omega
          have hc : a = b := by
            have := congrArg Char.ofNat hn
            rwa [Char.ofNat_toNat, Char.ofNat_toNat] at this
          rw [hc, ih h₁ h₂]

theorem strLe_refl (a : String) : strLe a a = true := listCharLe_refl a.data

theorem strLe_total {a b : String} (h : ¬ strLe a b = true) : strLe b a = true := by
  have hf : listCharLe a.data b.data = false := by
    cases hx : strLe a b
    · exact hx
    · exact absurd hx h
  exact listCharLe_total hf

theorem strLe_antisymm {a b : String} (h₁ : strLe a b = true) (h₂ : strLe b a = true) :
    a = b :=
  String.ext (listCharLe_antisymm h₁ h₂)

/-- GeneratePrivateChatID (server package): reject empty IDs, sort the two IDs
lexicographically ascending (Go `sort.Strings` on the two-element slice), and
return `private:<lo>:<hi>`. -/
def GeneratePrivateChatID (userID1 userID2 : String) : Except String String :=
  if userID1 = "" ∨ userID2 = "" then
    .error "user IDs cannot be empty for generating chat ID"
  else
    let lo := if strLe userID1 userID2 then userID1 else userID2
    let hi := if strLe userID1 userID2 then userID2 else userID1
    .ok ("private:" ++ lo ++ ":" ++ hi)

/-- generatePrivateChatIDClient (client main package): same as the server variant
but additionally rejects the case where both IDs are equal. -/
def generatePrivateChatIDClient (userID1 userID2 : String) : Except String String :=
  if userID1 = "" ∨ userID2 = "" then
    .error "user IDs cannot be empty for generating chat ID"
  else if userID1 = userID2 then
    .error "cannot create a private chat with oneself using this method"
  else
    let lo := if strLe userID1 userID2 then userID1 else userID2
    let hi := if strLe userID1 userID2 then userID2 else userID1
    .ok ("private:" ++ lo ++ ":" ++ hi)

theorem generatePrivateChatID_eq (a b : String) (ha : a ≠ "") (hb : b ≠ "") :
    GeneratePrivateChatID a b =
      .ok ("private:" ++ (if strLe a b then a else b) ++ ":" ++
        (if strLe a b then b else a)) := by
  unfold GeneratePrivateChatID
  rw [if_neg (show ¬ (a = "" ∨ b = "") by simp [ha, hb])]

theorem generatePrivateChatID_sorted (a b : String) (ha : a ≠ "") (hb : b ≠ "") :
    ∃ lo hi : String, ((lo = a ∧ hi = b) ∨ (lo = b ∧ hi = a)) ∧ strLe lo hi = true ∧
      GeneratePrivateChatID a b = .ok ("private:" ++ lo ++ ":" ++ hi) := by
  rw [generatePrivateChatID_eq a b ha hb]
  cases hab : strLe a b with
  | true => exact ⟨a, b, .inl ⟨rfl, rfl⟩, hab, by simp [hab]⟩
  | false =>
    exact ⟨b, a, .inr ⟨rfl, rfl⟩, strLe_total (by simp [hab]), by simp [hab]⟩

theorem generatePrivateChatID_comm (a b : String) :
    GeneratePrivateChatID a b = GeneratePrivateChatID b a := by
  by_cases ha : a = ""
  · by_cases hb : b = ""
    · subst ha
      subst hb
      rfl
    · unfold GeneratePrivateChatID
      rw [if_pos (Or.inl ha), if_pos (Or.inr ha)]
  · by_cases hb : b = ""
    · unfold GeneratePrivateChatID
      rw [if_pos (Or.inr hb), if_pos (Or.inl hb)]
    · rw [generatePrivateChatID_eq a b ha hb, generatePrivateChatID_eq b a hb ha]
      cases hab : strLe a b with
      | true =>
        cases hba : strLe b a with
        | true =>
          have : a = b := strLe_antisymm hab hba
          subst this
          rfl
        | false => simp [hab, hba]
      | false =>
        have hba : strLe b a = true := strLe_total (by simp [hab])
        simp [hab, hba]

end Messengor

/-- C5. Chat-ID derivation: for non-empty `a`, `b`, `GeneratePrivateChatID` succeeds and
returns `private:<lo>:<hi>` with `lo`, `hi` the two IDs sorted lexicographically
ascending, and it is symmetric in its arguments; if either argument is empty it
returns an error instead. -/
theorem Messengor.generatePrivateChatID_spec (a b : String) :
    (a ≠ "" → b ≠ "" →
      (∃ lo hi : String, ((lo = a ∧ hi = b) ∨ (lo = b ∧ hi = a)) ∧ strLe lo hi = true ∧
        GeneratePrivateChatID a b = .ok ("private:" ++ lo ++ ":" ++ hi)) ∧
      GeneratePrivateChatID a b = GeneratePrivateChatID b a) ∧
    ((a = "" ∨ b = "") → GeneratePrivateChatID a b =
      .error "user IDs cannot be empty for generating chat ID") := by
  refine ⟨fun ha hb => ⟨generatePrivateChatID_sorted a b ha hb,
    generatePrivateChatID_comm a b⟩, fun h => ?_⟩
  unfold GeneratePrivateChatID
  rw [if_pos h]

/-- C5 witness: concrete evaluation of the chat-ID derivation at the IDs
`"b"` and `"a"`, and at an empty ID. -/
theorem Messengor.generatePrivateChatID_spec_witness :
    Messengor.GeneratePrivateChatID "b" "a" = .ok "private:a:b" ∧
    Messengor.GeneratePrivateChatID "b" "a" = Messengor.GeneratePrivateChatID "a" "b" ∧
    Messengor.GeneratePrivateChatID "" "a" =
      .error "user IDs cannot be empty for generating chat ID" := by
  obtain ⟨h1, -⟩ := Messengor.generatePrivateChatID_spec "b" "a"
  obtain ⟨-, hsymm⟩ := h1 (by decide) (by decide)
  exact ⟨rfl, hsymm, (Messengor.generatePrivateChatID_spec "" "a").2 (Or.inl rfl)⟩

/-- C10. Self-pair chat identifier: for every non-empty `a`, the server-side
`GeneratePrivateChatID a a` succeeds and returns `private:<a>:<a>`, while the
client-side `generatePrivateChatIDClient a a` returns an error. -/
theorem Messengor.selfPairChatID_spec (a : String) (ha : a ≠ "") :
    Messengor.GeneratePrivateChatID a a = .ok ("private:" ++ a ++ ":" ++ a) ∧
    Messengor.generatePrivateChatIDClient a a =
      .error "cannot create a private chat with oneself using this method" := by
  constructor
  · rw [Messengor.generatePrivateChatID_eq a a ha ha]
    simp [Messengor.strLe_refl]
  · unfold Messengor.generatePrivateChatIDClient
    rw [if_neg (show ¬ (a = "" ∨ a = "") by simp [ha]), if_pos rfl]

/-- C10 witness: concrete evaluation at the user ID `"u1"`. -/
theorem Messengor.selfPairChatID_spec_witness :
    Messengor.GeneratePrivateChatID "u1" "u1" = .ok "private:u1:u1" ∧
    Messengor.generatePrivateChatIDClient "u1" "u1" =
      .error "cannot create a private chat with oneself using this method" := by
  obtain ⟨h1, h2⟩ := Messengor.selfPairChatID_spec "u1" (by decide)
  exact ⟨h1.trans (by rfl), h2⟩

namespace Messengor

/-- User record from auth_store.go. `createdAt` models `time.Time` opaquely. -/
structure User where
  id : String
  username : String
  passwordHash : String
  displayName : String
  createdAt : Nat
deriving Repr, DecidableEq

/-- The in-memory user store, Go `map[string]*User` keyed by username, modelled as
an association list (most recent insertion first). -/
abbrev UserStore := List (String × User)

/-- Go map read `userStore[username]`. -/
def storeLookup (store : UserStore) (username : String) : Option User :=
  (store.find? (fun e => e.1 == username)).map (fun e => e.2)

/-- Go map assignment `userStore[username] = u`. -/
def storeInsert (store : UserStore) (username : String) (u : User) : UserStore :=
  (username, u) :: store.filter (fun e => e.1 != username)

/-- Go `delete(userStore, username)`. -/
def storeDelete (store : UserStore) (username : String) : UserStore :=
  store.filter (fun e => e.1 != username)

/-- bcrypt.GenerateFromPassword at DefaultCost: fails only when the password
exceeds bcrypt's 72-byte limit; the salted hash is opaque to the rest of the
server, modelled as a tagged copy. -/
def bcryptGenerateFromPassword (password : String) : Option String :=
  if password.utf8ByteSize ≤ 72 then some ("bcrypt$" ++ password) else none

/-- The error cases of RegisterNewUser (auth_store.go). -/
inductive RegisterError
  | usernameTaken
  | passwordHashing
  | persistFailed
deriving Repr, DecidableEq

/-- RegisterNewUser (auth_store.go:105-143). `freshID` models `uuid.NewString()`,
`now` models `time.Now()`, and `persistOk` tells whether the `saveUsersToFile`
file write succeeds. Returns the in-memory store after the call and the result:
check for an existing username, hash the password, insert, persist, and on a
persist failure roll the insert back. -/
def RegisterNewUser (persistOk : Bool) (store : UserStore)
    (username password displayName freshID : String) (now : Nat) :
    UserStore × Except RegisterError User :=
  if (storeLookup store username).isSome then
    (store, .error .usernameTaken)
  else
    match bcryptGenerateFromPassword password with
    | none => (store, .error .passwordHashing)
    | some hash =>
      let newUser : User := ⟨freshID, username, hash, displayName, now⟩
      let store1 := storeInsert store username newUser
      if persistOk then
        (store1, .ok newUser)
      else
        (storeDelete store1 username, .error .persistFailed)

theorem storeLookup_insert_self (store : UserStore) (u : String) (x : User) :
    storeLookup (storeInsert store u x) u = some x := by
  simp [storeLookup, storeInsert, List.find?_cons]

theorem find?_key_filter_ne (store : UserStore) (v w : String) (hvw : v ≠ w) :
    (store.filter (fun e => e.1 != w)).find? (fun e => e.1 == v) =
      store.find? (fun e => e.1 == v) := by
  induction store with
  | nil => rfl
  | cons hd tl ih =>
    by_cases hk : hd.1 = v
    · have hkw : ((fun (e : String × User) => e.1 != w) hd = true) := by
        simp only [bne_iff_ne, ne_eq, hk]
        exact hvw
      have hpv : ((fun (e : String × User) => e.1 == v) hd = true) := by simp [hk]
      rw [List.filter_cons, if_pos hkw,
        List.find?_cons_of_pos (tl.filter (fun e => e.1 != w)) hpv,
        List.find?_cons_of_pos tl hpv]
    · have hknv : ¬ ((fun (e : String × User) => e.1 == v) hd = true) := by simp [hk]
      by_cases hw : hd.1 = w
      · have hne : ¬ ((fun (e : String × User) => e.1 != w) hd = true) := by simp [hw]
        rw [List.filter_cons, if_neg hne, ih, List.find?_cons_of_neg tl hknv]
      · have hne : ((fun (e : String × User) => e.1 != w) hd = true) := by simp [hw]
        rw [List.filter_cons, if_pos hne,
          List.find?_cons_of_neg (tl.filter (fun e => e.1 != w)) hknv,
          List.find?_cons_of_neg tl hknv, ih]

theorem storeLookup_insert_ne (store : UserStore) (u v : String) (x : User)
    (huv : u ≠ v) : storeLookup (storeInsert store v x) u = storeLookup store u := by
  have hvu : ¬ ((fun (e : String × User) => e.1 == u) (v, x) = true) := by
    simp only [beq_iff_eq]
    exact fun h => huv h.symm
  simp only [storeLookup, storeInsert]
  rw [List.find?_cons_of_neg (store.filter (fun e => e.1 != v)) hvu,
    find?_key_filter_ne store u v huv]

theorem storeDelete_insert_self (store : UserStore) (w : String) (x : User) :
    storeDelete (storeInsert store w x) w = storeDelete store w := by
  simp [storeDelete, storeInsert, List.filter_filter]

theorem storeDelete_of_lookup_none (store : UserStore) (u : String)
    (hu : storeLookup store u = none) : storeDelete store u = store := by
  have hfind : store.find? (fun e => e.1 == u) = none := by
    simp only [storeLookup] at hu
    exact Option.map_eq_none'.mp hu
  rw [storeDelete, List.filter_eq_self]
  intro e he
  have h2 := List.find?_eq_none.mp hfind e he
  simpa using h2

theorem storeLookup_delete_ne (store : UserStore) (u v : String) (huv : u ≠ v) :
    storeLookup (storeDelete store v) u = storeLookup store u := by
  simp [storeLookup, storeDelete, find?_key_filter_ne store u v huv]

/-- Branch equation: the username is already taken. -/
theorem registerNewUser_eq_taken (persistOk : Bool) (store : UserStore)
    (u p d i : String) (t : Nat) (h : (storeLookup store u).isSome) :
    RegisterNewUser persistOk store u p d i t = (store, .error .usernameTaken) := by
  rw [RegisterNewUser, if_pos h]

/-- Branch equation: the username is free and the password hashes. -/
theorem registerNewUser_eq_free (persistOk : Bool) (store : UserStore)
    (u p d i : String) (t : Nat) (hash : String)
    (h1 : ¬ (storeLookup store u).isSome = true)
    (hh : bcryptGenerateFromPassword p = some hash) :
    RegisterNewUser persistOk store u p d i t =
      (if persistOk then
        (storeInsert store u ⟨i, u, hash, d, t⟩, .ok ⟨i, u, hash, d, t⟩)
      else
        (storeDelete (storeInsert store u ⟨i, u, hash, d, t⟩) u,
          .error .persistFailed)) := by
  rw [RegisterNewUser, if_neg h1, hh]

/-- Branch equation: the username is free but hashing fails. -/
theorem registerNewUser_eq_hashFail (persistOk : Bool) (store : UserStore)
    (u p d i : String) (t : Nat)
    (h1 : ¬ (storeLookup store u).isSome = true)
    (hh : bcryptGenerateFromPassword p = none) :
    RegisterNewUser persistOk store u p d i t = (store, .error .passwordHashing) := by
  rw [RegisterNewUser, if_neg h1, hh]

/-- Inversion of a successful registration: the username was free, hashing and the
persist succeeded, and the result store is the store with the new user inserted. -/
theorem registerNewUser_ok_inv (persistOk : Bool) (store : UserStore)
    (u p d i : String) (t : Nat) (store' : UserStore) (usr : User)
    (h : RegisterNewUser persistOk store u p d i t = (store', .ok usr)) :
    storeLookup store u = none ∧ persistOk = true ∧
      usr.username = u ∧ store' = storeInsert store u usr := by
  by_cases h1 : (storeLookup store u).isSome
  · rw [registerNewUser_eq_taken persistOk store u p d i t h1] at h
    exact absurd (congrArg Prod.snd h) (by simp)
  · cases hh : bcryptGenerateFromPassword p with
    | none =>
      rw [registerNewUser_eq_hashFail persistOk store u p d i t h1 hh] at h
      exact absurd (congrArg Prod.snd h) (by simp)
    | some hash =>
      rw [registerNewUser_eq_free persistOk store u p d i t hash h1 hh] at h
      cases persistOk with
      | false =>
        rw [if_neg (by simp)] at h
        exact absurd (congrArg Prod.snd h) (by simp)
      | true =>
        rw [if_pos rfl, Prod.mk.injEq] at h
        obtain ⟨hs, hok⟩ := h
        have husr : (⟨i, u, hash, d, t⟩ : User) = usr := Except.ok.inj hok
        refine ⟨Option.not_isSome_iff_eq_none.mp h1, rfl, ?_, ?_⟩
        · rw [← husr]
        · rw [← hs, ← husr]

end Messengor

/-- C6. Username uniqueness: once a registration for username `u` has succeeded,
`u` is present in the store; any registration with a username present in the
store fails with `usernameTaken` and leaves the store unchanged; and presence of
`u` is preserved by every further registration call (so the failure persists
until the store is wiped). -/
theorem Messengor.register_username_unique
    (persistOk : Bool) (store store' : Messengor.UserStore) (u p d i : String)
    (t : Nat) (usr : Messengor.User)
    (h : Messengor.RegisterNewUser persistOk store u p d i t = (store', .ok usr)) :
    (Messengor.storeLookup store' u).isSome = true ∧
    (∀ (s : Messengor.UserStore), (Messengor.storeLookup s u).isSome = true →
      ∀ (ok2 : Bool) (p2 d2 i2 : String) (t2 : Nat),
        Messengor.RegisterNewUser ok2 s u p2 d2 i2 t2 = (s, .error .usernameTaken)) ∧
    (∀ (s : Messengor.UserStore), (Messengor.storeLookup s u).isSome = true →
      ∀ (ok2 : Bool) (v p2 d2 i2 : String) (t2 : Nat),
        (Messengor.storeLookup (Messengor.RegisterNewUser ok2 s v p2 d2 i2 t2).1 u).isSome
          = true) := by
  obtain ⟨-, -, -, hs⟩ := Messengor.registerNewUser_ok_inv persistOk store u p d i t store' usr h
  refine ⟨?_, ?_, ?_⟩
  · rw [hs, Messengor.storeLookup_insert_self]
    rfl
  · intro s hsu ok2 p2 d2 i2 t2
    exact Messengor.registerNewUser_eq_taken ok2 s u p2 d2 i2 t2 hsu
  · intro s hsu ok2 v p2 d2 i2 t2
    by_cases hv : (Messengor.storeLookup s v).isSome
    · rw [Messengor.registerNewUser_eq_taken ok2 s v p2 d2 i2 t2 hv]
      exact hsu
    · have huv : u ≠ v := by
        intro hc
        rw [hc] at hsu
        exact hv hsu
      cases hh : Messengor.bcryptGenerateFromPassword p2 with
      | none =>
        rw [Messengor.registerNewUser_eq_hashFail ok2 s v p2 d2 i2 t2 hv hh]
        exact hsu
      | some hash =>
        rw [Messengor.registerNewUser_eq_free ok2 s v p2 d2 i2 t2 hash hv hh]
        cases ok2 with
        | true =>
          rw [if_pos rfl]
          rw [show ((Messengor.storeInsert s v ⟨i2, v, hash, d2, t2⟩,
            (.ok ⟨i2, v, hash, d2, t2⟩ : Except Messengor.RegisterError Messengor.User)).1)
            = Messengor.storeInsert s v ⟨i2, v, hash, d2, t2⟩ from rfl]
          rw [Messengor.storeLookup_insert_ne s u v ⟨i2, v, hash, d2, t2⟩ huv]
          exact hsu
        | false =>
          rw [if_neg (by simp)]
          rw [show ((Messengor.storeDelete
              (Messengor.storeInsert s v ⟨i2, v, hash, d2, t2⟩) v,
            (.error .persistFailed : Except Messengor.RegisterError Messengor.User)).1)
            = Messengor.storeDelete (Messengor.storeInsert s v ⟨i2, v, hash, d2, t2⟩) v
            from rfl]
          rw [Messengor.storeDelete_insert_self, Messengor.storeLookup_delete_ne s u v huv]
          exact hsu

/-- C6 witness: registering `alice` succeeds and makes the username present; a
second registration of `alice` then fails with `usernameTaken` and leaves the
store unchanged. -/
theorem Messengor.register_username_unique_witness :
    (Messengor.storeLookup
      [("alice", (⟨"id1", "alice", "bcrypt$pw1", "Alice", 0⟩ : Messengor.User))]
      "alice").isSome = true ∧
    Messengor.RegisterNewUser true
      [("alice", (⟨"id1", "alice", "bcrypt$pw1", "Alice", 0⟩ : Messengor.User))]
      "alice" "pw2" "Alice2" "id2" 1 =
      ([("alice", (⟨"id1", "alice", "bcrypt$pw1", "Alice", 0⟩ : Messengor.User))],
        .error .usernameTaken) := by
  obtain ⟨h1, h2, -⟩ := Messengor.register_username_unique true []
    [("alice", (⟨"id1", "alice", "bcrypt$pw1", "Alice", 0⟩ : Messengor.User))]
    "alice" "pw1" "Alice" "id1" 0 ⟨"id1", "alice", "bcrypt$pw1", "Alice", 0⟩ rfl
  exact ⟨h1, h2 _ h1 true "pw2" "Alice2" "id2" 1⟩

/-- C7. Registration atomicity on persist failure: when the file write fails, the
in-memory insert is rolled back — the store returned by the failed call is the
store from before the call — and the call returns an error, not a user. -/
theorem Messengor.register_persist_rollback (store : Messengor.UserStore)
    (u p d i : String) (t : Nat)
    (hu : Messengor.storeLookup store u = none)
    (hp : (Messengor.bcryptGenerateFromPassword p).isSome = true) :
    Messengor.RegisterNewUser false store u p d i t = (store, .error .persistFailed) := by
  obtain ⟨hash, hh⟩ := Option.isSome_iff_exists.mp hp
  rw [Messengor.registerNewUser_eq_free false store u p d i t hash (by simp [hu]) hh,
    if_neg (by simp), Messengor.storeDelete_insert_self,
    Messengor.storeDelete_of_lookup_none store u hu]

/-- C7 witness: concrete rollback on persist failure for a fresh store. -/
theorem Messengor.register_persist_rollback_witness :
    Messengor.RegisterNewUser false [] "alice" "pw1" "Alice" "id1" 0 =
      ([], .error .persistFailed) :=
  Messengor.register_persist_rollback [] "alice" "pw1" "Alice" "id1" 0 rfl rfl

/-- C8 counterexample: a registration in which all three strings are empty
succeeds and inserts a user — the code performs no emptiness validation, so the
claim that such a call must fail is false. -/
theorem Messengor.register_empty_strings_succeed :
    Messengor.RegisterNewUser true [] "" "" "" "id-0" 0 =
      ([("", (⟨"id-0", "", "bcrypt$", "", 0⟩ : Messengor.User))],
        .ok ⟨"id-0", "", "bcrypt$", "", 0⟩) := rfl

/-- C8 amended: RegisterNewUser applies no emptiness validation to username,
password, or display name; any call — including one where any of the three
strings is empty — succeeds whenever the username is not already present, the
password is within bcrypt's 72-byte limit, and the persist succeeds. -/
theorem Messengor.register_no_empty_check (store : Messengor.UserStore)
    (u p d i : String) (t : Nat)
    (hu : Messengor.storeLookup store u = none) (hp : p.utf8ByteSize ≤ 72) :
    Messengor.RegisterNewUser true store u p d i t =
      (Messengor.storeInsert store u ⟨i, u, "bcrypt$" ++ p, d, t⟩,
        .ok ⟨i, u, "bcrypt$" ++ p, d, t⟩) := by
  rw [Messengor.registerNewUser_eq_free true store u p d i t ("bcrypt$" ++ p)
    (by simp [hu]) (by simp [Messengor.bcryptGenerateFromPassword, hp]), if_pos rfl]

/-- C8 amended witness: the amended statement evaluated with all three strings
empty on a fresh store. -/
theorem Messengor.register_no_empty_check_witness :
    Messengor.RegisterNewUser true [] "" "" "" "id-7" 3 =
      ([("", (⟨"id-7", "", "bcrypt$", "", 3⟩ : Messengor.User))],
        .ok ⟨"id-7", "", "bcrypt$", "", 3⟩) := by
  have h := Messengor.register_no_empty_check [] "" "" "" "id-7" 3 rfl (by decide)
  exact h

namespace Messengor

/-- StoredMessage from the protocol package. -/
structure StoredMessage where
  chatID : String
  messageID : String
  senderID : String
  senderName : String
  text : String
  timestamp : Int
deriving Repr, DecidableEq

/-- One line of a chat's `.jsonl` history file: either it unmarshals as a
StoredMessage, or it is malformed and is skipped on load with a warning.
JSON round-trips, so a line written by SaveMessage unmarshals to the record
that was written. -/
inductive HistoryLine
  | valid (msg : StoredMessage)
  | corrupt (raw : String)
deriving Repr, DecidableEq

/-- Per-chat history state: the uuid-generator call counter together with the
chat file's lines. `uuid.NewString()` is modelled as a supply `uuid : Nat → String`
applied to the call counter. -/
structure HistState where
  counter : Nat
  log : List HistoryLine
deriving Repr, DecidableEq

/-- SaveMessage (history store): reject an empty chat ID, build a StoredMessage
with a fresh message ID and the current wall-clock timestamp, and append its
JSON line to the chat's file. -/
def SaveMessage (uuid : Nat → String) (chatID senderID senderName text : String)
    (now : Int) (st : HistState) : Except String (StoredMessage × HistState) :=
  if chatID = "" then
    .error "chatID cannot be empty"
  else
    let storedMsg : StoredMessage :=
      ⟨chatID, uuid st.counter, senderID, senderName, text, now⟩
    .ok (storedMsg, ⟨st.counter + 1, st.log ++ [.valid storedMsg]⟩)

/-- The scanner loop of LoadChatHistory: unmarshal each line, keeping the
well-formed records in file order and skipping malformed lines. -/
def scanMessages (lines : List HistoryLine) : List StoredMessage :=
  lines.filterMap (fun l =>
    match l with
    | .valid m => some m
    | .corrupt _ => none)

/-- LoadChatHistory (history store): reject an empty chat ID, scan the whole
file, and when `limit > 0` and more than `limit` messages were read keep only
the final `limit` entries (Go `messages[len(messages)-limit:]`). -/
def LoadChatHistory (chatID : String) (lines : List HistoryLine) (limit : Int) :
    Except String (List StoredMessage) :=
  if chatID = "" then
    .error "chatID cannot be empty"
  else
    .ok (if 0 < limit ∧ limit < ((scanMessages lines).length : Int) then
      (scanMessages lines).drop ((scanMessages lines).length - limit.toNat)
    else scanMessages lines)

/-- One private- or broadcast-message append request: the per-call arguments of
SaveMessage other than the chat ID. -/
structure AppendReq where
  senderID : String
  senderName : String
  text : String
  now : Int
deriving Repr, DecidableEq

/-- A sequence of SaveMessage calls on one chat, threading the history state;
the driver stops if a call fails (it cannot for a non-empty chat ID). -/
def runAppends (uuid : Nat → String) (chatID : String) (st : HistState) :
    List AppendReq → List StoredMessage × HistState
  | [] => ([], st)
  | r :: rs =>
    match SaveMessage uuid chatID r.senderID r.senderName r.text r.now st with
    | .error _ => ([], st)
    | .ok (m, st1) =>
      let res := runAppends uuid chatID st1 rs
      (m :: res.1, res.2)

theorem scanMessages_map_valid (ms : List StoredMessage) :
    scanMessages (ms.map (fun m => HistoryLine.valid m)) = ms := by
  induction ms with
  | nil => rfl
  | cons m tl ih =>
    simp only [List.map_cons, scanMessages, List.filterMap_cons] at ih ⊢
    simp [ih]

theorem saveMessage_eq (uuid : Nat → String) (chatID senderID senderName text : String)
    (now : Int) (st : HistState) (hc : chatID ≠ "") :
    SaveMessage uuid chatID senderID senderName text now st =
      .ok (⟨chatID, uuid st.counter, senderID, senderName, text, now⟩,
        ⟨st.counter + 1,
          st.log ++ [.valid ⟨chatID, uuid st.counter, senderID, senderName, text, now⟩]⟩) := by
  rw [SaveMessage, if_neg hc]

theorem runAppends_spec (uuid : Nat → String) (chatID : String) (hc : chatID ≠ "")
    (reqs : List AppendReq) (st : HistState) :
    (runAppends uuid chatID st reqs).1.length = reqs.length ∧
    (runAppends uuid chatID st reqs).2.log =
      st.log ++ (runAppends uuid chatID st reqs).1.map (fun m => .valid m) ∧
    (runAppends uuid chatID st reqs).1.map (fun m => m.messageID) =
      (List.range reqs.length).map (fun j => uuid (st.counter + j)) := by
  induction reqs generalizing st with
  | nil => simp [runAppends]
  | cons r rs ih =>
    have hsave := saveMessage_eq uuid chatID r.senderID r.senderName r.text r.now st hc
    obtain ⟨ih1, ih2, ih3⟩ := ih ⟨st.counter + 1,
      st.log ++ [.valid ⟨chatID, uuid st.counter, r.senderID, r.senderName, r.text, r.now⟩]⟩
    dsimp only at ih1 ih2 ih3
    rw [runAppends, hsave]
    refine ⟨by simpa using ih1, ?_, ?_⟩
    · simpa [List.append_assoc] using ih2
    · simp only [List.map_cons, List.length_cons, List.range_succ_eq_map, List.map_map,
        Nat.add_zero]
      rw [ih3]
      congr 1
      apply List.map_congr_left
      intro j hj
      simp only [Function.comp_apply]
      exact congrArg uuid (by omega)

end Messengor

/-- C2. History append-and-load round trip: on a fresh chat log, a sequence of
`k` SaveMessage calls all succeed (one stored record per call); when the uuid
supply is fresh over those calls the returned records bear pairwise-distinct
message IDs; and LoadChatHistory with any `limit ≥ k` returns exactly those `k`
records in append order. -/
theorem Messengor.history_append_load (uuid : Nat → String) (chatID : String)
    (reqs : List Messengor.AppendReq) (n : Nat) (hc : chatID ≠ "")
    (hid : (((List.range reqs.length).map (fun j => uuid (n + j))).Nodup)) :
    (Messengor.runAppends uuid chatID ⟨n, []⟩ reqs).1.length = reqs.length ∧
    ((Messengor.runAppends uuid chatID ⟨n, []⟩ reqs).1.map
      (fun m => m.messageID)).Nodup ∧
    (∀ limit : Int, (reqs.length : Int) ≤ limit →
      Messengor.LoadChatHistory chatID
        (Messengor.runAppends uuid chatID ⟨n, []⟩ reqs).2.log limit =
        .ok (Messengor.runAppends uuid chatID ⟨n, []⟩ reqs).1) := by
  obtain ⟨h1, h2, h3⟩ := Messengor.runAppends_spec uuid chatID hc reqs ⟨n, []⟩
  dsimp only at h1 h2 h3
  refine ⟨h1, ?_, ?_⟩
  · rw [h3]
    exact hid
  · intro limit hlim
    rw [Messengor.LoadChatHistory, if_neg hc, h2, List.nil_append,
      Messengor.scanMessages_map_valid]
    have hcond : ¬ (0 < limit ∧ limit <
        (((Messengor.runAppends uuid chatID ⟨n, []⟩ reqs).1.length : Nat) : Int)) := by
      rw [h1]
      omega
    rw [if_neg hcond]

/-- C2 witness: two appends on the fresh `global_broadcast` log with a counter
uuid supply produce two records with distinct IDs, and a load with limit 50
returns exactly those two records in append order. -/
theorem Messengor.history_append_load_witness :
    ((Messengor.runAppends (fun k => "uuid-" ++ toString k) "global_broadcast" ⟨0, []⟩
      [⟨"A", "Alice", "hi", 10⟩, ⟨"B", "Bob", "hey", 11⟩]).1.map
        (fun m => m.messageID)).Nodup ∧
    Messengor.LoadChatHistory "global_broadcast"
      (Messengor.runAppends (fun k => "uuid-" ++ toString k) "global_broadcast" ⟨0, []⟩
        [⟨"A", "Alice", "hi", 10⟩, ⟨"B", "Bob", "hey", 11⟩]).2.log 50 =
      .ok [⟨"global_broadcast", "uuid-0", "A", "Alice", "hi", 10⟩,
        ⟨"global_broadcast", "uuid-1", "B", "Bob", "hey", 11⟩] := by
  obtain ⟨-, hnd, hload⟩ := Messengor.history_append_load
    (fun k => "uuid-" ++ toString k) "global_broadcast"
    [⟨"A", "Alice", "hi", 10⟩, ⟨"B", "Bob", "hey", 11⟩] 0
    (by decide) (by decide)
  exact ⟨hnd, (hload 50 (by norm_num)).trans (by rfl)⟩

namespace Messengor

/-- Go `strings.Split` with a single-character separator, on the character
list of the string. `Split("", sep)` is `[""]`; each separator occurrence
starts a new chunk. -/
def stringsSplit (sep : Char) : List Char → List (List Char)
  | [] => [[]]
  | c :: cs =>
    if c = sep then [] :: stringsSplit sep cs
    else
      match stringsSplit sep cs with
      | [] => [[c]]
      | p :: ps => (c :: p) :: ps

theorem stringsSplit_ne_nil (sep : Char) (l : List Char) : stringsSplit sep l ≠ [] := by
  cases l with
  | nil => simp [stringsSplit]
  | cons c cs =>
    rw [stringsSplit]
    by_cases h : c = sep
    · simp [h]
    · rw [if_neg h]
      cases hs : stringsSplit sep cs with
      | nil => simp
      | cons p ps => simp

theorem stringsSplit_sepFree (sep : Char) (l : List Char)
    (h : ∀ c ∈ l, c ≠ sep) : stringsSplit sep l = [l] := by
  induction l with
  | nil => rfl
  | cons c cs ih =>
    have hc : c ≠ sep := h c (List.mem_cons_self c cs)
    rw [stringsSplit, if_neg hc, ih (fun x hx => h x (List.mem_cons_of_mem c hx))]

theorem stringsSplit_append (sep : Char) (xs ys : List Char)
    (hxs : ∀ c ∈ xs, c ≠ sep) :
    stringsSplit sep (xs ++ sep :: ys) = xs :: stringsSplit sep ys := by
  induction xs with
  | nil => simp [stringsSplit]
  | cons c cs ih =>
    have hc : c ≠ sep := hxs c (List.mem_cons_self c cs)
    rw [List.cons_append, stringsSplit, if_neg hc,
      ih (fun x hx => hxs x (List.mem_cons_of_mem c hx))]

/-- Inversion of `stringsSplit`: the head chunk is separator-free, and the input
is the head chunk, followed — when further chunks exist — by the separator and
a remainder splitting to those chunks. -/
theorem stringsSplit_eq_cons (sep : Char) (l : List Char) (a : List Char)
    (rest : List (List Char)) (h : stringsSplit sep l = a :: rest) :
    (∀ c ∈ a, c ≠ sep) ∧ (rest = [] → l = a) ∧
      (rest ≠ [] → ∃ l2, l = a ++ sep :: l2 ∧ stringsSplit sep l2 = rest) := by
  induction l generalizing a rest with
  | nil =>
    rw [stringsSplit] at h
    obtain ⟨ha, hrest⟩ := List.cons.inj h
    refine ⟨by simp [← ha], fun _ => ha, fun hne => absurd hrest.symm hne⟩
  | cons c cs ih =>
    rw [stringsSplit] at h
    by_cases hc : c = sep
    · rw [if_pos hc] at h
      obtain ⟨ha, hrest⟩ := List.cons.inj h
      have hrne : rest ≠ [] := hrest ▸ stringsSplit_ne_nil sep cs
      refine ⟨by simp [← ha], fun he => absurd he hrne, fun _ => ⟨cs, ?_, hrest⟩⟩
      rw [← ha, hc]
      rfl
    · rw [if_neg hc] at h
      cases hs : stringsSplit sep cs with
      | nil => exact absurd hs (stringsSplit_ne_nil sep cs)
      | cons p ps =>
        rw [hs] at h
        obtain ⟨ha, hrest⟩ := List.cons.inj h
        obtain ⟨ihp, ihnil, ihcons⟩ := ih p ps hs
        constructor
        · intro x hx
          rw [← ha] at hx
          rcases List.mem_cons.mp hx with hx1 | hx2
          · rw [hx1]
            exact hc
          · exact ihp x hx2
        · constructor
          · intro hre
            rw [hre] at hrest
            rw [← ha, ihnil hrest]
          · intro hre
            rw [hrest] at ihcons
            obtain ⟨l2, hl2, hsp⟩ := ihcons hre
            exact ⟨l2, by rw [← ha, hl2, List.cons_append], hsp⟩

/-- If a list decomposes in two ways around the first occurrence of the
separator, the decompositions agree. -/
theorem split_first_sep_unique (sep : Char) (l1 l2 r1 r2 : List Char)
    (h : l1 ++ sep :: r1 = l2 ++ sep :: r2)
    (h1 : ∀ c ∈ l1, c ≠ sep) (h2 : ∀ c ∈ l2, c ≠ sep) :
    l1 = l2 ∧ r1 = r2 := by
  induction l1 generalizing l2 with
  | nil =>
    cases l2 with
    | nil => simpa using h
    | cons d ds =>
      rw [List.nil_append, List.cons_append] at h
      obtain ⟨hd, -⟩ := List.cons.inj h
      exact absurd hd.symm (h2 d (List.mem_cons_self d ds))
  | cons c cs ih =>
    cases l2 with
    | nil =>
      rw [List.nil_append, List.cons_append] at h
      obtain ⟨hd, -⟩ := List.cons.inj h
      exact absurd hd (h1 c (List.mem_cons_self c cs))
    | cons d ds =>
      rw [List.cons_append, List.cons_append] at h
      obtain ⟨hd, htl⟩ := List.cons.inj h
      obtain ⟨hl, hr⟩ := ih ds htl (fun x hx => h1 x (List.mem_cons_of_mem c hx))
        (fun x hx => h2 x (List.mem_cons_of_mem d hx))
      exact ⟨by rw [hd, hl], hr⟩

end Messengor

namespace Messengor

/-- GetChatHistoryRequestPayload from the protocol package. -/
structure GetChatHistoryRequestPayload where
  chatID : String
  sinceMessageID : String
  limit : Int
deriving Repr, DecidableEq

/-- A frame enqueued by the session to its outbound queue in reply to a
history request. -/
inductive ServerFrame
  | errorNotify (errorCode errorMessage : String)
  | chatHistoryResponse (chatID : String) (messages : List StoredMessage)
deriving Repr, DecidableEq

/-- The authorization check of the GET_CHAT_HISTORY_REQUEST branch of
Client.readPump: the global channel is readable by every authenticated session;
otherwise the chat ID must carry the `private:` prefix and split on `:` into
exactly three parts with the requester's user ID in position 1 or 2. -/
def canAccessChat (userID chatID : String) : Bool :=
  if chatID = "global_broadcast" then true
  else if "private:".data.isPrefixOf chatID.data then
    (stringsSplit ':' chatID.data).length == 3 &&
      ((stringsSplit ':' chatID.data)[1]? == some userID.data ||
        (stringsSplit ':' chatID.data)[2]? == some userID.data)
  else false

/-- The limit defaulting of the same branch: a requested limit that is
non-positive or above 100 becomes 50. -/
def clampHistoryLimit (limit : Int) : Int :=
  if limit ≤ 0 ∨ limit > 100 then 50 else limit

/-- The GET_CHAT_HISTORY_REQUEST branch of Client.readPump: access check, limit
clamping, load, reply. `lines` is the content of the requested chat's log file.
On denial the session replies ACCESS_DENIED without touching the log. -/
def handleGetChatHistoryRequest (userID : String) (req : GetChatHistoryRequestPayload)
    (lines : List HistoryLine) : List ServerFrame :=
  if ¬ canAccessChat userID req.chatID then
    [.errorNotify "ACCESS_DENIED" "You do not have permission to access this chat history."]
  else
    match LoadChatHistory req.chatID lines (clampHistoryLimit req.limit) with
    | .error _ => [.errorNotify "HISTORY_LOAD_FAILED" "Could not load chat history."]
    | .ok messages => [.chatHistoryResponse req.chatID messages]

/-- The authorization rule in the specification's words: the chat is the global
channel, or it is a private channel `private:<x>:<y>` (the member IDs `x`, `y`
written without colons, as canonical user IDs are) and the requester is one of
the two named members. -/
def AllowedChat (userID chatID : String) : Prop :=
  chatID = "global_broadcast" ∨
  ∃ x y : String, ':' ∉ x.data ∧ ':' ∉ y.data ∧
    chatID = "private:" ++ x ++ ":" ++ y ∧ (userID = x ∨ userID = y)

theorem canAccessChat_iff (userID chatID : String) :
    canAccessChat userID chatID = true ↔ AllowedChat userID chatID := by
  constructor
  · intro h
    by_cases hg : chatID = "global_broadcast"
    · exact Or.inl hg
    · rw [canAccessChat, if_neg hg] at h
      by_cases hpre : "private:".data.isPrefixOf chatID.data = true
      · rw [if_pos hpre] at h
        simp only [Bool.and_eq_true, Bool.or_eq_true, beq_iff_eq] at h
        obtain ⟨hlen, hmem⟩ := h
        obtain ⟨p0, p1, p2, hsp⟩ := List.length_eq_three.mp hlen
        obtain ⟨hp0f, -, hrec0⟩ := stringsSplit_eq_cons ':' chatID.data p0 [p1, p2] hsp
        obtain ⟨l1, hl1, hs1⟩ := hrec0 (by simp)
        obtain ⟨hp1f, -, hrec1⟩ := stringsSplit_eq_cons ':' l1 p1 [p2] hs1
        obtain ⟨l2, hl2, hs2⟩ := hrec1 (by simp)
        obtain ⟨hp2f, hnil2, -⟩ := stringsSplit_eq_cons ':' l2 p2 [] hs2
        rw [hnil2 rfl] at hl2
        obtain ⟨t, ht⟩ := List.isPrefixOf_iff_prefix.mp hpre
        have hsplit8 : "private".data ++ ':' :: t = p0 ++ ':' :: l1 := by
          rw [← hl1, ← ht]
          rfl
        obtain ⟨hp0, htl1⟩ := split_first_sep_unique ':' "private".data p0 t l1
          hsplit8 (by decide) hp0f
        refine Or.inr ⟨⟨p1⟩, ⟨p2⟩, ?_, ?_, ?_, ?_⟩
        · intro hc
          exact hp1f ':' hc rfl
        · intro hc
          exact hp2f ':' hc rfl
        · apply String.ext
          rw [hl1, hl2, ← hp0]
          simp only [String.data_append,
            show ("private:").data = "private".data ++ [':'] from rfl,
            show (":").data = [':'] from rfl]
          simp [List.append_assoc]
        · rw [hsp] at hmem
          simp only [List.getElem?_cons_succ, List.getElem?_cons_zero,
            Option.some.injEq] at hmem
          rcases hmem with h1 | h2
          · exact Or.inl (String.ext h1.symm)
          · exact Or.inr (String.ext h2.symm)
      · rw [if_neg hpre] at h
        exact absurd h (by simp)
  · intro h
    rcases h with hg | ⟨x, y, hx, hy, hchat, hmem⟩
    · rw [canAccessChat, if_pos hg]
    · by_cases hg : chatID = "global_broadcast"
      · rw [canAccessChat, if_pos hg]
      · rw [canAccessChat, if_neg hg]
        have hxf : ∀ c ∈ x.data, c ≠ ':' := fun c hc hce => hx (hce ▸ hc)
        have hdata : chatID.data =
            "private".data ++ ':' :: (x.data ++ ':' :: y.data) := by
          rw [hchat]
          simp only [String.data_append,
            show ("private:").data = "private".data ++ [':'] from rfl,
            show (":").data = [':'] from rfl]
          simp [List.append_assoc]
        have hpre : "private:".data.isPrefixOf chatID.data = true := by
          rw [List.isPrefixOf_iff_prefix, hdata]
          exact ⟨x.data ++ ':' :: y.data, by rfl⟩
        rw [if_pos hpre]
        have hsp : stringsSplit ':' chatID.data = ["private".data, x.data, y.data] := by
          rw [hdata, stringsSplit_append ':' "private".data _ (by decide),
            stringsSplit_append ':' x.data _ hxf,
            stringsSplit_sepFree ':' y.data (fun c hc hce => hy (hce ▸ hc))]
        rw [hsp]
        simp only [List.length_cons, List.length_nil, Bool.and_eq_true, beq_iff_eq,
          Bool.or_eq_true, List.getElem?_cons_succ, List.getElem?_cons_zero,
          Option.some.injEq]
        refine ⟨by simp, ?_⟩
        rcases hmem with h1 | h2
        · exact Or.inl (by rw [h1])
        · exact Or.inr (by rw [h2])

theorem canAccessChat_ne_empty (userID chatID : String)
    (h : canAccessChat userID chatID = true) : chatID ≠ "" := by
  intro hc
  subst hc
  rw [canAccessChat, if_neg (by decide), if_neg (by decide)] at h
  exact absurd h (by decide)

end Messengor

namespace Messengor

theorem handleGetChatHistoryRequest_denied (userID : String)
    (req : GetChatHistoryRequestPayload) (lines : List HistoryLine)
    (h : canAccessChat userID req.chatID = false) :
    handleGetChatHistoryRequest userID req lines =
      [.errorNotify "ACCESS_DENIED"
        "You do not have permission to access this chat history."] := by
  rw [handleGetChatHistoryRequest, if_pos (by simp [h])]

theorem handleGetChatHistoryRequest_ok (userID : String)
    (req : GetChatHistoryRequestPayload) (lines : List HistoryLine)
    (ms : List StoredMessage)
    (hacc : canAccessChat userID req.chatID = true)
    (hload : LoadChatHistory req.chatID lines (clampHistoryLimit req.limit) = .ok ms) :
    handleGetChatHistoryRequest userID req lines = [.chatHistoryResponse req.chatID ms] := by
  rw [handleGetChatHistoryRequest, if_neg (by simp [hacc]), hload]

theorem loadChatHistory_clamped_ok (chatID : String) (lines : List HistoryLine)
    (limit : Int) (hne : chatID ≠ "") :
    LoadChatHistory chatID lines (clampHistoryLimit limit) =
      .ok (if 0 < clampHistoryLimit limit ∧
          clampHistoryLimit limit < ((scanMessages lines).length : Int) then
        (scanMessages lines).drop
          ((scanMessages lines).length - (clampHistoryLimit limit).toNat)
      else scanMessages lines) := by
  rw [LoadChatHistory, if_neg hne]

end Messengor

/-- C4. History access control: the code's access check grants a request exactly
when the chat is the global channel or a private channel of which the requester
is one of the two named members; a denied request is answered with an
ACCESS_DENIED error notify whose content does not depend on the log (the log is
not read); a granted request is answered with a CHAT_HISTORY_RESPONSE built by
loading the log with the clamped limit. -/
theorem Messengor.history_access_control (userID chatID : String) (limit : Int)
    (lines : List Messengor.HistoryLine) :
    (Messengor.canAccessChat userID chatID = true ↔
      Messengor.AllowedChat userID chatID) ∧
    (Messengor.canAccessChat userID chatID = false →
      ∀ lines2 : List Messengor.HistoryLine,
        Messengor.handleGetChatHistoryRequest userID ⟨chatID, "", limit⟩ lines2 =
          [.errorNotify "ACCESS_DENIED"
            "You do not have permission to access this chat history."]) ∧
    (Messengor.canAccessChat userID chatID = true →
      ∃ ms : List Messengor.StoredMessage,
        Messengor.LoadChatHistory chatID lines (Messengor.clampHistoryLimit limit) =
          .ok ms ∧
        Messengor.handleGetChatHistoryRequest userID ⟨chatID, "", limit⟩ lines =
          [.chatHistoryResponse chatID ms]) := by
  refine ⟨Messengor.canAccessChat_iff userID chatID, ?_, ?_⟩
  · intro h lines2
    exact Messengor.handleGetChatHistoryRequest_denied userID ⟨chatID, "", limit⟩ lines2 h
  · intro h
    have hne : chatID ≠ "" := Messengor.canAccessChat_ne_empty userID chatID h
    refine ⟨_, Messengor.loadChatHistory_clamped_ok chatID lines limit hne, ?_⟩
    exact Messengor.handleGetChatHistoryRequest_ok userID ⟨chatID, "", limit⟩ lines _
      h (Messengor.loadChatHistory_clamped_ok chatID lines limit hne)

/-- C4 witness: Carol (id C) is denied history of `private:A:B` regardless of
the log, while Alice (id A) is served the stored `hello` message. -/
theorem Messengor.history_access_control_witness :
    Messengor.handleGetChatHistoryRequest "C" ⟨"private:A:B", "", 0⟩
      [.valid ⟨"private:A:B", "m1", "A", "Alice", "hello", 5⟩] =
      [.errorNotify "ACCESS_DENIED"
        "You do not have permission to access this chat history."] ∧
    Messengor.handleGetChatHistoryRequest "A" ⟨"private:A:B", "", 0⟩
      [.valid ⟨"private:A:B", "m1", "A", "Alice", "hello", 5⟩] =
      [.chatHistoryResponse "private:A:B"
        [⟨"private:A:B", "m1", "A", "Alice", "hello", 5⟩]] := by
  obtain ⟨-, hden, -⟩ := Messengor.history_access_control "C" "private:A:B" 0
    [.valid ⟨"private:A:B", "m1", "A", "Alice", "hello", 5⟩]
  obtain ⟨-, -, hok⟩ := Messengor.history_access_control "A" "private:A:B" 0
    [.valid ⟨"private:A:B", "m1", "A", "Alice", "hello", 5⟩]
  obtain ⟨ms, hload, hresp⟩ := hok (by decide)
  have hms : ms = [⟨"private:A:B", "m1", "A", "Alice", "hello", 5⟩] := by
    have h2 : Messengor.LoadChatHistory "private:A:B"
        [.valid ⟨"private:A:B", "m1", "A", "Alice", "hello", 5⟩]
        (Messengor.clampHistoryLimit 0) =
        .ok [⟨"private:A:B", "m1", "A", "Alice", "hello", 5⟩] := by rfl
    exact Except.ok.inj (hload.symm.trans h2)
  refine ⟨hden (by decide) _, ?_⟩
  rw [hresp, hms]

namespace Messengor

theorem loadChatHistory_fifty (chatID : String) (lines : List HistoryLine)
    (hne : chatID ≠ "") :
    LoadChatHistory chatID lines 50 =
      .ok ((scanMessages lines).drop ((scanMessages lines).length - 50)) := by
  rw [LoadChatHistory, if_neg hne]
  by_cases hlen : (50 : Int) < ((scanMessages lines).length : Int)
  · rw [if_pos ⟨by norm_num, hlen⟩]
    rfl
  · rw [if_neg (fun hc => hlen hc.2)]
    have hz : (scanMessages lines).length - 50 = 0 := by omega
    rw [hz, List.drop_zero]

end Messengor

/-- C3. History limit clamping: for a request the session is allowed to make,
any limit that is non-positive or above 100 is served as if it were 50: the
clamped limit is 50, the reply equals the reply for limit 50, and it is a
CHAT_HISTORY_RESPONSE holding the final 50 well-formed log entries in on-disk
(oldest-first) order, the whole file being scanned and malformed lines
discarded. -/
theorem Messengor.history_limit_clamp (userID chatID : String) (limit : Int)
    (lines : List Messengor.HistoryLine)
    (hacc : Messengor.canAccessChat userID chatID = true)
    (hlim : limit ≤ 0 ∨ limit > 100) :
    Messengor.clampHistoryLimit limit = 50 ∧
    Messengor.handleGetChatHistoryRequest userID ⟨chatID, "", limit⟩ lines =
      Messengor.handleGetChatHistoryRequest userID ⟨chatID, "", 50⟩ lines ∧
    Messengor.handleGetChatHistoryRequest userID ⟨chatID, "", limit⟩ lines =
      [.chatHistoryResponse chatID
        ((Messengor.scanMessages lines).drop
          ((Messengor.scanMessages lines).length - 50))] := by
  have hne : chatID ≠ "" := Messengor.canAccessChat_ne_empty userID chatID hacc
  have hc1 : Messengor.clampHistoryLimit limit = 50 := by
    rw [Messengor.clampHistoryLimit, if_pos hlim]
  have hc2 : Messengor.clampHistoryLimit 50 = 50 := by
    rw [Messengor.clampHistoryLimit, if_neg (by norm_num)]
  have hload : Messengor.LoadChatHistory chatID lines (Messengor.clampHistoryLimit limit) =
      .ok ((Messengor.scanMessages lines).drop
        ((Messengor.scanMessages lines).length - 50)) := by
    rw [hc1, Messengor.loadChatHistory_fifty chatID lines hne]
  have hload50 : Messengor.LoadChatHistory chatID lines (Messengor.clampHistoryLimit 50) =
      .ok ((Messengor.scanMessages lines).drop
        ((Messengor.scanMessages lines).length - 50)) := by
    rw [hc2, Messengor.loadChatHistory_fifty chatID lines hne]
  have hresp := Messengor.handleGetChatHistoryRequest_ok userID ⟨chatID, "", limit⟩ lines
    _ hacc hload
  have hresp50 := Messengor.handleGetChatHistoryRequest_ok userID ⟨chatID, "", 50⟩ lines
    _ hacc hload50
  exact ⟨hc1, hresp.trans hresp50.symm, hresp⟩

/-- C3 witness: with 120 stored broadcasts and requested limit 0, the reply
holds exactly the 71st through 120th messages (the final 50) in send order. -/
theorem Messengor.history_limit_clamp_witness :
    Messengor.handleGetChatHistoryRequest "A" ⟨"global_broadcast", "", 0⟩
      ((List.range 120).map (fun j =>
        Messengor.HistoryLine.valid
          ⟨"global_broadcast", toString j, "A", "Alice", "m", (j : Int)⟩)) =
      [.chatHistoryResponse "global_broadcast"
        (((List.range 120).map (fun j =>
          (⟨"global_broadcast", toString j, "A", "Alice", "m", (j : Int)⟩ :
            Messengor.StoredMessage))).drop 70)] := by
  obtain ⟨-, -, h3⟩ := Messengor.history_limit_clamp "A" "global_broadcast" 0
    ((List.range 120).map (fun j =>
      Messengor.HistoryLine.valid
        ⟨"global_broadcast", toString j, "A", "Alice", "m", (j : Int)⟩))
    (by rfl) (Or.inl (by norm_num))
  rw [h3]
  rfl

namespace Messengor

/-- bcrypt.CompareHashAndPassword against the hash model of
`bcryptGenerateFromPassword`: the comparison succeeds exactly when the hash was
produced from the same password. -/
def bcryptCompareHashAndPassword (hash password : String) : Bool :=
  hash == "bcrypt$" ++ password

/-- AuthenticateUser (auth_store.go): look the username up under a read lock;
unknown user and wrong password are distinct errors. -/
def AuthenticateUser (store : UserStore) (username password : String) :
    Except String User :=
  match storeLookup store username with
  | none => .error "user not found"
  | some user =>
    if bcryptCompareHashAndPassword user.passwordHash password then
      .ok user
    else
      .error "invalid password"

/-- A frame actually written to the socket by the pre-auth gate
(`sendWebSocketResponse`). -/
inductive WireFrame
  | registerResponse (success : Bool) (userID errorMessage : String)
  | loginResponse (success : Bool) (userID displayName sessionToken errorMessage : String)
deriving Repr, DecidableEq

/-- sendErrorMessage (server package): its send is commented out — the function
only logs `Should send error to client` and writes nothing to the connection. -/
def sendErrorMessage (errorCode errorMessage : String) : List WireFrame :=
  []

/-- The `err.Error()` strings surfaced in a failed RegisterResponse. -/
def registerErrorMessage : RegisterError → String
  | .usernameTaken => "username is already taken"
  | .passwordHashing => "failed to hash password"
  | .persistFailed => "failed to save new user to persistent store"

/-- One inbound frame as the pre-auth gate classifies it. -/
inductive GateInbound
  | nonText
  | malformedJSON
  | registerRequest (username password displayName : String)
  | loginRequest (username password : String)
  | unexpected (msgType : String)
deriving Repr, DecidableEq

/-- Whether the AUTH_LOOP continues or exits with an authenticated user. -/
inductive GateOutcome
  | stayInGate
  | authenticated (u : User)
deriving Repr, DecidableEq

/-- One iteration of the pre-auth AUTH_LOOP (HandleWebSocketConnections): the
resulting user store, the frames written to the socket, and whether the loop
continues. A malformed frame elicits `sendErrorMessage "INVALID_JSON"`, which
writes nothing; the loop continues either way. -/
def gateHandleFrame (persistOk : Bool) (store : UserStore)
    (freshID token : String) (now : Nat) :
    GateInbound → UserStore × List WireFrame × GateOutcome
  | .nonText =>
    (store, sendErrorMessage "INVALID_MESSAGE_TYPE"
      "Expected text message for authentication.", .stayInGate)
  | .malformedJSON =>
    (store, sendErrorMessage "INVALID_JSON" "Could not parse JSON message.", .stayInGate)
  | .registerRequest u p d =>
    match RegisterNewUser persistOk store u p d freshID now with
    | (store1, .error e) =>
      (store1, [.registerResponse false "" (registerErrorMessage e)], .stayInGate)
    | (store1, .ok usr) =>
      (store1, [.registerResponse true usr.id ""], .stayInGate)
  | .loginRequest u p =>
    match AuthenticateUser store u p with
    | .error e => (store, [.loginResponse false "" "" "" e], .stayInGate)
    | .ok usr =>
      (store, [.loginResponse true usr.id usr.displayName token ""], .authenticated usr)
  | .unexpected _ =>
    (store, sendErrorMessage "UNEXPECTED_MESSAGE_TYPE"
      "Expected LoginRequest or RegisterRequest.", .stayInGate)

/-- One inbound frame as the authenticated read pump classifies it, for the
branches modelled here. -/
inductive SessionInbound
  | malformedJSON
  | getChatHistoryRequest (req : GetChatHistoryRequestPayload)
  | unknown (msgType : String)
deriving Repr, DecidableEq

/-- Dispatch of one inbound text frame in the authenticated Client.readPump:
the frames the session enqueues to its outbound queue. A frame whose envelope
fails to unmarshal is logged and skipped — no error is sent and the loop
continues (client.go readPump, unmarshal-failure branch). -/
def readPumpHandleFrame (userID : String) (history : List HistoryLine) :
    SessionInbound → List ServerFrame
  | .malformedJSON => []
  | .getChatHistoryRequest req => handleGetChatHistoryRequest userID req history
  | .unknown _ =>
    [.errorNotify "UNKNOWN_MESSAGE_TYPE" "Unhandled message type by server."]

end Messengor

/-- C9 evidence: a text frame with a malformed JSON body elicits no error frame.
In the pre-auth gate the INVALID_JSON path calls `sendErrorMessage`, whose send
is commented out, so nothing is written and the loop continues; in an
authenticated session the frame is skipped without even calling the error
helper. The connection stays open in both cases (the loop continues), but no
error frame reaches the sender — contrary to the claim. -/
theorem Messengor.malformed_json_sends_no_error_frame :
    Messengor.gateHandleFrame true [] "id1" "tok1" 0 .malformedJSON =
      ([], Messengor.sendErrorMessage "INVALID_JSON" "Could not parse JSON message.",
        .stayInGate) ∧
    Messengor.sendErrorMessage "INVALID_JSON" "Could not parse JSON message." = [] ∧
    Messengor.readPumpHandleFrame "A" [] .malformedJSON = [] :=
  ⟨rfl, rfl, rfl⟩

namespace Messengor

/-- The capacity of a session's outbound queue (`make(chan []byte, 256)`). -/
def sendQueueCapacity : Nat := 256

/-- A client as the hub sees it: its identity, its authentication flag, and its
outbound queue contents (oldest first). -/
structure HubClient where
  cid : Nat
  isAuthenticated : Bool
  send : List String
deriving Repr, DecidableEq

/-- The broadcast case of Hub.Run (hub.go): a non-empty message is offered to
every client in the set; an authenticated client with room in its outbound
queue gets the message appended (non-blocking send succeeds); an authenticated
client with a full queue is removed from the set and its unregister is
scheduled; an unauthenticated client is skipped but kept. -/
def hubBroadcast (clients : List HubClient) (message : String) : List HubClient :=
  if 0 < message.utf8ByteSize then
    clients.filterMap (fun c =>
      if c.isAuthenticated then
        if c.send.length < sendQueueCapacity then
          some { c with send := c.send ++ [message] }
        else
          none
      else some c)
  else clients

end Messengor

/-- C1. Broadcast FIFO: submit frame A and then frame B to the hub's broadcast
channel. Every authenticated session that is in the hub's set with room in its
outbound queue for both frames remains in the set for both deliveries and ends
with its original queue followed by A and then B — A is enqueued before B, so
the session's delivered stream shows A before B. -/
theorem Messengor.hub_broadcast_fifo (clients : List Messengor.HubClient)
    (A B : String) (c : Messengor.HubClient)
    (hc : c ∈ clients) (hauth : c.isAuthenticated = true)
    (hroom : c.send.length + 1 < Messengor.sendQueueCapacity)
    (hA : 0 < A.utf8ByteSize) (hB : 0 < B.utf8ByteSize) :
    { c with send := c.send ++ [A, B] } ∈
      Messengor.hubBroadcast (Messengor.hubBroadcast clients A) B := by
  have h1 : { c with send := c.send ++ [A] } ∈ Messengor.hubBroadcast clients A := by
    rw [Messengor.hubBroadcast, if_pos hA]
    apply List.mem_filterMap.mpr
    refine ⟨c, hc, ?_⟩
    rw [if_pos hauth, if_pos (by omega)]
  rw [Messengor.hubBroadcast, if_pos hB]
  apply List.mem_filterMap.mpr
  refine ⟨{ c with send := c.send ++ [A] }, h1, ?_⟩
  rw [if_pos hauth, if_pos (by simp; omega)]
  simp

/-- C1 witness: one authenticated session with an empty queue receives `x` and
then `y`, in that order, across two broadcasts. -/
theorem Messengor.hub_broadcast_fifo_witness :
    (⟨1, true, ["x", "y"]⟩ : Messengor.HubClient) ∈
      Messengor.hubBroadcast (Messengor.hubBroadcast [⟨1, true, []⟩] "x") "y" :=
  Messengor.hub_broadcast_fifo [⟨1, true, []⟩] "x" "y" ⟨1, true, []⟩
    (by decide) rfl (by decide) (by decide) (by decide)
